import Mathlib

/-!
Shallow embedding of the transaction-extraction engine of the
`ambolt-studio/pdf-parser` repository (src/app.py, src/parsers/*.py),
together with theorems settling the frozen claims about its
specification.

Strings are modelled as Lean `String`s (lists of characters); Python
regular-expression operations used by the code are modelled by
executable character-list scanners that reproduce the leftmost-match,
greedy-with-backtracking semantics of the specific patterns appearing
in the source.  Python floats are modelled by `ℚ` (the amounts handled
by the code are short decimal literals, for which float arithmetic in
the source is exact as far as the claims are concerned).
-/

namespace PdfParser

/-! ### Character helpers (Python `\w`, `\s`, `\d`, `str.lower`, `str.upper`, `str.strip`) -/

/-- Python regex `\s` (ASCII whitespace, the only whitespace occurring in the data). -/
def isSpaceChar (c : Char) : Bool :=
  c = ' ' || c = '\t' || c = '\n' || c = '\r' || c = '\x0b' || c = '\x0c'

/-- Python regex `\d` (ASCII digits). -/
def isDigitChar (c : Char) : Bool :=
  '0' ≤ c && c ≤ '9'

/-- ASCII letters. -/
def isAlphaChar (c : Char) : Bool :=
  ('A' ≤ c && c ≤ 'Z') || ('a' ≤ c && c ≤ 'z')

/-- Python regex `\w` restricted to the character repertoire of the data. -/
def isWordChar (c : Char) : Bool :=
  isAlphaChar c || isDigitChar c || c = '_'

/-- Python `str.lower` on the ASCII and Latin-1 letters occurring in the data. -/
def lowerChar (c : Char) : Char :=
  if 'A' ≤ c && c ≤ 'Z' then Char.ofNat (c.toNat + 32)
  else if 0xC0 ≤ c.toNat && c.toNat ≤ 0xDE && c.toNat ≠ 0xD7 then Char.ofNat (c.toNat + 32)
  else c

/-- Python `str.upper` on the ASCII and Latin-1 letters occurring in the data. -/
def upperChar (c : Char) : Char :=
  if 'a' ≤ c && c ≤ 'z' then Char.ofNat (c.toNat - 32)
  else if 0xE0 ≤ c.toNat && c.toNat ≤ 0xFE && c.toNat ≠ 0xF7 then Char.ofNat (c.toNat - 32)
  else c

def pyLower (s : String) : String := ⟨s.data.map lowerChar⟩

def pyUpper (s : String) : String := ⟨s.data.map upperChar⟩

/-- Python `str.strip()` (trim whitespace at both ends). -/
def pyStripL (l : List Char) : List Char :=
  (((l.dropWhile isSpaceChar).reverse).dropWhile isSpaceChar).reverse

def pyStrip (s : String) : String := ⟨pyStripL s.data⟩

/-- Does `pat` occur as a prefix of `l`? -/
def startsW : List Char → List Char → Bool
  | [], _ => true
  | _ :: _, [] => false
  | p :: ps, c :: cs => p = c && startsW ps cs

/-- Python `pat in s` (substring containment) on character lists. -/
def containsSubL (pat : List Char) : List Char → Bool
  | [] => startsW pat []
  | c :: cs => startsW pat (c :: cs) || containsSubL pat cs

/-- Python `pat in s` (substring containment). -/
def containsSub (s pat : String) : Bool := containsSubL pat.data s.data

/-- Python `any(kw in s for kw in kws)`. -/
def containsAny (s : String) (kws : List String) : Bool :=
  kws.any fun kw => containsSub s kw

/-- Python `" ".join(parts)`. -/
def joinSpace : List String → String
  | [] => ""
  | [s] => s
  | s :: rest => s ++ " " ++ joinSpace rest

/-! ### A small regex engine

Boolean matcher for the restricted regular-expression fragment used by the
direction rules and the auxiliary searches in the source.  `matchSeq ts prev l`
decides whether the token sequence `ts` matches some prefix of `l`, where
`prev` is the character immediately before `l` (needed for `\b`). -/

inductive RTok where
  | lit : List Char → RTok
  | alts : List (List Char) → RTok
  | optLit : List Char → RTok
  | wsPlus : RTok
  | wsStar : RTok
  | bnd : RTok
  | dotStar : RTok
  | wsOrEnd : RTok
  | digs : Nat → Nat → RTok
  | chcls : List Char → RTok
deriving Repr

/-- Word-boundary test between `prev` and the head of `l` (regex `\b`). -/
def bndAt (prev : Option Char) (l : List Char) : Bool :=
  let w1 := match prev with | none => false | some c => isWordChar c
  let w2 := match l with | [] => false | c :: _ => isWordChar c
  w1 != w2

/-- Termination weight of a token (alternation/option expansion shrinks it). -/
def sizeTok : RTok → Nat
  | .alts ss => 2 * ss.length + 4
  | .optLit _ => 3
  | .wsPlus => 2
  | _ => 1

def sizeToks (ts : List RTok) : Nat := (ts.map sizeTok).sum

def lastOr (prev : Option Char) (s : List Char) : Option Char :=
  match s.getLast? with
  | some c => some c
  | none => prev

/-- Fuel-based matcher.  Every recursive call strictly decreases
`l.length + sizeToks ts`, so the fuel supplied by `matchSeq` below is never
exhausted and the `fuel = 0` branch is unreachable. -/
def matchSeqF : Nat → List RTok → Option Char → List Char → Bool
  | 0, _, _, _ => false
  | _ + 1, [], _, _ => true
  | fuel + 1, .lit s :: ts, prev, l =>
      startsW s l && matchSeqF fuel ts (lastOr prev s) (l.drop s.length)
  | _ + 1, .alts [] :: _, _, _ => false
  | fuel + 1, .alts (s :: ss) :: ts, prev, l =>
      matchSeqF fuel (.lit s :: ts) prev l || matchSeqF fuel (.alts ss :: ts) prev l
  | fuel + 1, .optLit s :: ts, prev, l =>
      matchSeqF fuel (.lit s :: ts) prev l || matchSeqF fuel ts prev l
  | fuel + 1, .wsPlus :: ts, _, l =>
      match l with
      | [] => false
      | c :: t => isSpaceChar c && matchSeqF fuel (.wsStar :: ts) (some c) t
  | fuel + 1, .wsStar :: ts, prev, l =>
      matchSeqF fuel ts prev l ||
        (match l with
         | [] => false
         | c :: t => isSpaceChar c && matchSeqF fuel (.wsStar :: ts) (some c) t)
  | fuel + 1, .bnd :: ts, prev, l =>
      bndAt prev l && matchSeqF fuel ts prev l
  | fuel + 1, .dotStar :: ts, prev, l =>
      matchSeqF fuel ts prev l ||
        (match l with
         | [] => false
         | c :: t => c ≠ '\n' && matchSeqF fuel (.dotStar :: ts) (some c) t)
  | fuel + 1, .wsOrEnd :: ts, prev, l =>
      match l with
      | [] => matchSeqF fuel ts prev []
      | c :: t => isSpaceChar c && matchSeqF fuel ts (some c) t
  | fuel + 1, .digs lo hi :: ts, prev, l =>
      (lo = 0 && matchSeqF fuel ts prev l) ||
        (0 < hi &&
          match l with
          | [] => false
          | c :: t => isDigitChar c && matchSeqF fuel (.digs (lo - 1) (hi - 1) :: ts) (some c) t)
  | fuel + 1, .chcls cs :: ts, prev, l =>
      match l with
      | [] => false
      | c :: t => cs.contains c && matchSeqF fuel ts (some c) t

def matchSeq (ts : List RTok) (prev : Option Char) (l : List Char) : Bool :=
  matchSeqF (l.length + sizeToks ts + 1) ts prev l

/-- Python `re.search`: does the token sequence match starting at some position? -/
def searchFrom (p : List RTok) : Option Char → List Char → Bool
  | prev, l =>
      matchSeq p prev l ||
        (match l with
         | [] => false
         | c :: t => searchFrom p (some c) t)

/-- Python `re.search(pattern, s)` as a Boolean. -/
def reSearch (p : List RTok) (l : List Char) : Bool := searchFrom p none l

/-! ### The shared money-token pattern `RE_AMOUNT` (src/parsers/base.py line 7)

`RE_AMOUNT = \(?[−\-—–]?\$?\d{1,3}(?:,\d{3})*(?:\.\d{2})?\)?\-?`.
`matchAmountAt l` attempts a match of this pattern at the head of `l`,
returning the matched token and the remaining input.  All parts after the
mandatory digit group are optional, so the greedy scan below agrees with
Python's backtracking matcher. -/

def isSignChar (c : Char) : Bool :=
  c = '−' || c = '-' || c = '—' || c = '–'

/-- Consume up to `n` leading digits (greedy `\d{1,n}` with nothing forcing backtracking). -/
def takeDigitsUpTo : Nat → List Char → (List Char × List Char)
  | 0, l => ([], l)
  | _ + 1, [] => ([], [])
  | n + 1, c :: t =>
      if isDigitChar c then
        let (ds, r) := takeDigitsUpTo n t
        (c :: ds, r)
      else ([], c :: t)

/-- Consume `(?:,\d{3})*` (greedy, each repetition needs a comma and exactly three digits). -/
def takeCommaGroups : List Char → (List Char × List Char)
  | ',' :: a :: b :: c :: t =>
      if isDigitChar a && isDigitChar b && isDigitChar c then
        let (gs, r) := takeCommaGroups t
        (',' :: a :: b :: c :: gs, r)
      else ([], ',' :: a :: b :: c :: t)
  | l => ([], l)

/-- Consume `(?:\.\d{2})?`. -/
def takeDecPart : List Char → (List Char × List Char)
  | '.' :: a :: b :: t =>
      if isDigitChar a && isDigitChar b then (['.', a, b], t) else ([], '.' :: a :: b :: t)
  | l => ([], l)

def takeOptChar (c : Char) : List Char → (List Char × List Char)
  | x :: t => if x = c then ([x], t) else ([], x :: t)
  | [] => ([], [])

/-- Match `RE_AMOUNT` at the head of `l`; `none` when the mandatory digit group is absent. -/
def matchAmountAt (l : List Char) : Option (List Char × List Char) :=
  let (p1, r1) := takeOptChar '(' l
  let (p2, r2) := match r1 with
    | c :: t => if isSignChar c then ([c], t) else ([], r1)
    | [] => ([], r1)
  let (p3, r3) := takeOptChar '$' r2
  let (ds, r4) := takeDigitsUpTo 3 r3
  if ds.isEmpty then none
  else
    let (cg, r5) := takeCommaGroups r4
    let (dp, r6) := takeDecPart r5
    let (p7, r7) := takeOptChar ')' r6
    let (p8, r8) := takeOptChar '-' r7
    some (p1 ++ p2 ++ p3 ++ ds ++ cg ++ dp ++ p7 ++ p8, r8)

/-- Python `RE_AMOUNT.findall` (leftmost, non-overlapping).  The fuel argument
is the length of the input; every successful match consumes at least one
character, so the fuel never runs out. -/
def findAmountsAux : Nat → List Char → List (List Char)
  | 0, _ => []
  | _ + 1, [] => []
  | fuel + 1, c :: t =>
      match matchAmountAt (c :: t) with
      | some (tok, rest) => tok :: findAmountsAux fuel rest
      | none => findAmountsAux fuel t

def findAmounts (s : String) : List String :=
  (findAmountsAux s.data.length s.data).map fun tok => ⟨tok⟩

/-- Python `float(tok)` for tokens made of digits and at most one dot (other
characters make it fail, mirroring the `try/except` in the source). -/
def pyFloatQ (l : List Char) : Option ℚ :=
  let (ip, r) := (l.takeWhile isDigitChar, l.dropWhile isDigitChar)
  match r with
  | [] => if ip.isEmpty then none else some (digitsToNat ip : ℚ)
  | '.' :: fr =>
      if fr.all isDigitChar && !(ip.isEmpty && fr.isEmpty) then
        some ((digitsToNat ip : ℚ) + (digitsToNat fr : ℚ) / ((10 : ℚ) ^ fr.length))
      else none
  | _ => none
where
  digitsToNat (ds : List Char) : Nat :=
    ds.foldl (fun acc c => 10 * acc + (c.toNat - '0'.toNat)) 0

/-- Characters stripped by the `.replace` chains before `float(...)` in the source. -/
def stripAmountChars (l : List Char) : List Char :=
  l.filter fun c => !(c = '(' || c = ')' || c = '-' || c = '$' || c = ',')

/-- Python `pick_amount` (src/parsers/base.py lines 71-81) with `prefer_first=True`,
the only mode the modelled parsers use. -/
def pick_amount (tokens : List String) : Option ℚ :=
  match tokens with
  | [] => none
  | tok :: _ =>
      let tl := tok.data
      let neg := (tl.getLast? = some '-') || (tl.head? = some '-') || (tl.head? = some '(')
      match pyFloatQ (stripAmountChars tl) with
      | none => none
      | some v => some (if neg then -v else v)

/-! ### Date-token recognizers (src/parsers/base.py lines 8-16 and 51-69) -/

/-- Zero-padded decimal rendering, Python `f"{n:02d}"`. -/
def pad2 (n : Nat) : String :=
  if n < 10 then "0" ++ toString n else toString n

/-- Zero-padded decimal rendering, Python `f"{n:04d}"`. -/
def pad4 (n : Nat) : String :=
  if n < 10 then "000" ++ toString n
  else if n < 100 then "00" ++ toString n
  else if n < 1000 then "0" ++ toString n
  else toString n

/-- Consume exactly `k` digits, returning their value. -/
def takeDigitsExactly (k : Nat) (l : List Char) : Option (Nat × List Char) :=
  go k l 0
where
  go : Nat → List Char → Nat → Option (Nat × List Char)
    | 0, l, acc => some (acc, l)
    | _ + 1, [], _ => none
    | k + 1, c :: t, acc =>
        if isDigitChar c then go k t (10 * acc + (c.toNat - '0'.toNat)) else none

/-- Word-boundary after a digit: the next character must not be a word character. -/
def bndAfterDigit : List Char → Bool
  | [] => true
  | c :: _ => !isWordChar c

/-- Match `RE_DATE_SLASH = ^\s*(\d{1,2})/(\d{1,2})(?:/(\d{2,4}))?\b` against `l`,
with Python's backtracking order (two digits before one, longer year first,
year group present before absent). -/
def matchDateSlash (l : List Char) : Option (Nat × Nat × Option Nat) :=
  let l1 := l.dropWhile isSpaceChar
  tryMM 2 l1 <|> tryMM 1 l1
where
  tryYear (k : Nat) (r : List Char) : Option (Nat × List Char) :=
    match r with
    | '/' :: t =>
        match takeDigitsExactly k t with
        | some (y, r2) => if bndAfterDigit r2 then some (y, r2) else none
        | none => none
    | _ => none
  tryDD (mm : Nat) (k : Nat) (r : List Char) : Option (Nat × Nat × Option Nat) :=
    match takeDigitsExactly k r with
    | some (dd, r2) =>
        match tryYear 4 r2 <|> tryYear 3 r2 <|> tryYear 2 r2 with
        | some (y, _) => some (mm, dd, some y)
        | none => if bndAfterDigit r2 then some (mm, dd, none) else none
    | none => none
  tryMM (k : Nat) (l1 : List Char) : Option (Nat × Nat × Option Nat) :=
    match takeDigitsExactly k l1 with
    | some (mm, r) =>
        match r with
        | '/' :: r2 => tryDD mm 2 r2 <|> tryDD mm 1 r2
        | _ => none
    | none => none

/-- Python `parse_mmdd_token` (src/parsers/base.py lines 51-57).  Note the absence
of any month/day range validation in the source. -/
def parse_mmdd_token (s : String) (fallback_year : Nat) : Option String :=
  match matchDateSlash s.data with
  | none => none
  | some (mm, dd, yy) =>
      let y := match yy with
        | some v => if v < 100 then 2000 + v else v
        | none => fallback_year
      some (pad4 y ++ "-" ++ pad2 mm ++ "-" ++ pad2 dd)

/-- Month-name table `MONTHS` (src/parsers/base.py lines 12-16). -/
def MONTHS : List (String × Nat) :=
  [("january", 1), ("february", 2), ("march", 3), ("april", 4), ("may", 5), ("june", 6),
   ("july", 7), ("august", 8), ("september", 9), ("october", 10), ("november", 11),
   ("december", 12),
   ("jan", 1), ("feb", 2), ("mar", 3), ("apr", 4), ("jun", 6), ("jul", 7), ("aug", 8),
   ("sep", 9), ("sept", 9), ("oct", 10), ("nov", 11), ("dec", 12)]

def monthsLookup (w : String) : Option Nat :=
  (MONTHS.find? fun p => p.1 = w).map Prod.snd

/-- Find the leftmost match of `RE_DATE_LONG = \b([A-Za-z]{3,9})\s+(\d{1,2}),\s*(\d{4})\b`
(case-insensitive) and return its groups (word, day, year).  At a given start
position the letter group must be a maximal letter run of length 3..9 (a shorter
prefix would be followed by a letter, not `\s`). -/
def longDateFind : Option Char → List Char → Option (String × Nat × Nat)
  | prev, l =>
      (if bndAt prev l then matchHere l else none) <|>
        (match l with
         | [] => none
         | c :: t => longDateFind (some c) t)
where
  matchHere (l : List Char) : Option (String × Nat × Nat) :=
    let w := l.takeWhile isAlphaChar
    if 3 ≤ w.length && w.length ≤ 9 then
      let r1 := l.dropWhile isAlphaChar
      match r1 with
      | c :: _ =>
          if isSpaceChar c then
            let r2 := r1.dropWhile isSpaceChar
            match dayComma 2 r2 <|> dayComma 1 r2 with
            | some (d, r3) =>
                let r4 := r3.dropWhile isSpaceChar
                match takeDigitsExactly 4 r4 with
                | some (y, r5) => if bndAfterDigit r5 then some (⟨w⟩, d, y) else none
                | none => none
            | none => none
          else none
      | [] => none
    else none
  dayComma (k : Nat) (r : List Char) : Option (Nat × List Char) :=
    match takeDigitsExactly k r with
    | some (d, ',' :: r3) => some (d, r3)
    | _ => none

/-- Python `parse_long_date` (src/parsers/base.py lines 59-63): search the long-date
pattern, then look the captured word up in `MONTHS`; an unknown word makes the
whole call return `None` even if a later match would succeed, as in the source. -/
def parse_long_date (s : String) : Option String :=
  match longDateFind none s.data with
  | none => none
  | some (w, d, y) =>
      match monthsLookup (pyLower w) with
      | none => none
      | some mon => some (pad4 y ++ "-" ++ pad2 mon ++ "-" ++ pad2 d)

/-- Month abbreviations of `RE_DATE_MMMDD` in their alternation order. -/
def MMM_ABBREVS : List String :=
  ["Jan", "Feb", "Mar", "Apr", "May", "Jun", "Jul", "Aug", "Sep", "Sept", "Oct", "Nov", "Dec"]

/-- Match `RE_DATE_MMMDD = ^\s*(Jan|...|Sept|...|Dec)\s+(\d{1,2})\b` (case-insensitive)
with Python's backtracking across alternatives. -/
def matchMMMDD (l : List Char) : Option (String × Nat) :=
  let l1 := l.dropWhile isSpaceChar
  go MMM_ABBREVS l1
where
  after (a : String) (l1 : List Char) : Option (String × Nat) :=
    if startsW (pyLower a).data ((l1.take a.length).map lowerChar) && a.length ≤ l1.length then
      let r := l1.drop a.length
      match r with
      | c :: _ =>
          if isSpaceChar c then
            let r2 := r.dropWhile isSpaceChar
            match dayTok 2 r2 <|> dayTok 1 r2 with
            | some d => some (a, d)
            | none => none
          else none
      | [] => none
    else none
  dayTok (k : Nat) (r : List Char) : Option Nat :=
    match takeDigitsExactly k r with
    | some (d, r2) => if bndAfterDigit r2 then some d else none
    | none => none
  go : List String → List Char → Option (String × Nat)
    | [], _ => none
    | a :: rest, l1 => after a l1 <|> go rest l1

/-- Python `parse_mmmdd` (src/parsers/base.py lines 65-69). -/
def parse_mmmdd (s : String) (fallback_year : Nat) : Option String :=
  match matchMMMDD s.data with
  | none => none
  | some (w, d) =>
      match monthsLookup (pyLower w) with
      | none => none
      | some mon => some (pad4 fallback_year ++ "-" ++ pad2 mon ++ "-" ++ pad2 d)

/-- Find the first `\b(20\d{2})\b` in the text (src/parsers/base.py line 48). -/
def findYear20xx (s : String) : Option Nat :=
  go none s.data
where
  here (l : List Char) : Option Nat :=
    match l with
    | '2' :: '0' :: a :: b :: r =>
        if isDigitChar a && isDigitChar b && bndAfterDigit r then
          some (2000 + 10 * (a.toNat - '0'.toNat) + (b.toNat - '0'.toNat))
        else none
    | _ => none
  go : Option Char → List Char → Option Nat
    | prev, l =>
        (if bndAt prev l then here l else none) <|>
          (match l with
           | [] => none
           | c :: t => go (some c) t)

/-- Python `detect_year` (src/parsers/base.py lines 47-49).  The fallback to
`datetime.utcnow().year` makes the result depend on the wall clock, which the
model exposes as the explicit `nowYear` argument. -/
def detect_year (text : String) (nowYear : Nat) : Nat :=
  match findYear20xx text with
  | some y => y
  | none => nowYear

/-- Python `clean_desc_remove_amount` (src/parsers/base.py lines 83-84):
`re.sub(r"\s*" + RE_AMOUNT.pattern + r"\s*$", "", desc).strip()`.  The sub
removes the leftmost suffix of the form `\s* amount \s*`; scanning positions
left to right reproduces `re.sub`'s behaviour for this end-anchored pattern. -/
def clean_desc_remove_amount (desc : String) : String :=
  pyStrip ⟨go desc.data.length desc.data⟩
where
  suffixMatch (l : List Char) : Bool :=
    match matchAmountAt (l.dropWhile isSpaceChar) with
    | some (_, rest) => rest.all isSpaceChar
    | none => false
  go : Nat → List Char → List Char
    | 0, l => l
    | _ + 1, [] => []
    | fuel + 1, c :: t => if suffixMatch (c :: t) then [] else c :: go fuel t

/-! ### Transaction records -/

/-- A transaction record as emitted by the bank parsers (the per-parser dicts);
`direction` is `none` when the parser leaves the key absent (mercury, generic). -/
structure Tx where
  date : String
  description : String
  amount : ℚ
  direction : Option String := none
deriving Repr, DecidableEq

/-- A normalized transaction record as emitted by `normalize_transactions`. -/
structure NTx where
  date : String
  description : String
  amount : ℚ
  direction : String
deriving Repr, DecidableEq

/-- Python `x or y` for an optional string field (absent and `""` are falsy). -/
def pyOr (o : Option String) (dflt : String) : String :=
  match o with
  | some s => if s = "" then dflt else s
  | none => dflt

/-! ### Direction rules (src/parsers/common.py lines 5-42) -/

/-- One entry of `DIR_RULES`: either an ordinary pattern or the
`\bWT\b(?!.*(CHARGE|FEE))` rule with its negative lookahead. -/
inductive DirRule where
  | pat : List RTok → DirRule
  | wtNoChargeFee : DirRule

/-- Search for `\bWT\b` followed by no later `CHARGE`/`FEE` (the negative
lookahead of the `WT` rule). -/
def wtSearch : Option Char → List Char → Bool
  | _, [] => false
  | prev, c :: t =>
      (match c, t with
       | 'W', 'T' :: rest =>
           bndAt prev ('W' :: 'T' :: rest) && bndAt (some 'T') rest &&
             !(matchSeq [.dotStar, .alts ["CHARGE".data, "FEE".data]] (some 'T') rest)
       | _, _ => false) ||
        wtSearch (some c) t

def ruleMatches (r : DirRule) (d : List Char) : Bool :=
  match r with
  | .pat p => reSearch p d
  | .wtNoChargeFee => wtSearch none d

/-- Shorthand for a literal token. -/
def rl (s : String) : RTok := .lit s.data

/-- The global `DIR_RULES` list (src/parsers/common.py lines 5-34), in order. -/
def DIR_RULES : List (DirRule × String) :=
  [ (.pat [.bnd, rl "ACH", .wsPlus, rl "DEBIT", .bnd], "out"),
    (.pat [.bnd, rl "ACH", .wsPlus, rl "PULL", .bnd], "out"),
    (.pat [.bnd, rl "BILL", .wsStar, .alts ["PAID".data, "PMT".data], .bnd], "out"),
    (.pat [.bnd, rl "DEBIT", .wsPlus, rl "MEMO", .bnd], "out"),
    (.pat [.bnd, rl "SERVICE CHARGE", .optLit "S".data, .bnd], "out"),
    (.pat [.bnd, rl "WIRE", .wsPlus, rl "FEE", .bnd], "out"),
    (.pat [.bnd, rl "WIRE", .wsPlus, rl "TRANS", .wsPlus, rl "SVC", .wsPlus, rl "CHARGE", .bnd],
      "out"),
    (.pat [.bnd, rl "DBT", .wsPlus, rl "CRD", .bnd], "out"),
    (.pat [.bnd, rl "POS", .wsPlus, rl "DEB", .bnd], "out"),
    (.pat [.bnd, rl "DEBIT", .wsPlus, rl "CARD", .wsPlus, rl "PURCH", .bnd], "out"),
    (.pat [.bnd, rl "ZELLE", .dotStar, rl "PAYMENT", .wsPlus, rl "TO", .bnd], "out"),
    (.pat [.bnd, rl "PAYPAL", .bnd], "out"),
    (.pat [.bnd, rl "CHECK", .bnd], "out"),
    (.pat [.bnd, rl "WITHDRAWAL", .bnd], "out"),
    (.pat [.bnd, rl "FEE", .bnd], "out"),
    (.pat [.bnd, rl "ACH", .wsPlus, rl "CREDIT", .bnd], "in"),
    (.pat [.bnd, rl "ACH", .wsPlus, rl "IN", .bnd], "in"),
    (.pat [.bnd, rl "ELECTRONIC", .wsPlus, rl "CREDIT", .bnd], "in"),
    (.pat [.bnd, rl "DEBIT", .wsPlus, rl "CARD", .wsPlus, rl "CREDI", .optLit "T".data, .bnd],
      "in"),
    (.pat [.bnd, rl "ZELLE", .dotStar, rl "PAYMENT", .wsPlus, rl "FROM", .bnd], "in"),
    (.pat [.bnd, rl "WIRE", .wsPlus, rl "IN", .wsOrEnd], "in"),
    (.pat [.bnd, rl "INTEREST", .wsPlus, rl "PAYMENT", .bnd], "in"),
    (.wtNoChargeFee, "in"),
    (.pat [.bnd, rl "PAYPAL", .dotStar, rl "CREDIT", .bnd], "in") ]

def decideAux : List (DirRule × String) → List Char → ℚ → String
  | [], _, a => if a < 0 then "out" else "in"
  | (r, dd) :: rs, d, a => if ruleMatches r d then dd else decideAux rs d a

/-- Python `decide_direction` (src/parsers/common.py lines 36-42): first matching
rule wins; the sign fallback maps negatives to `"out"` and everything else,
including zero, to `"in"`. -/
def decide_direction (description : String) (signed_amount : ℚ) : String :=
  decideAux DIR_RULES (pyUpper description).data signed_amount

/-- One normalized record (the loop body of `normalize_transactions`,
src/parsers/common.py lines 47-60).  `signed` reproduces the
`str(t["amount"]).startswith("-")` re-signing, which flips a negative amount
to its absolute value. -/
def normOne (t : Tx) : NTx :=
  let amt := t.amount
  let signed := if amt < 0 then -amt else amt
  { date := t.date
    description := pyStrip t.description
    amount := |amt|
    direction := pyOr t.direction (decide_direction t.description signed) }

/-- Lexicographic order on character lists by code point, Python's `str`
comparison restricted to the strings handled here. -/
def strLeL : List Char → List Char → Bool
  | [], _ => true
  | _ :: _, [] => false
  | a :: as, b :: bs =>
      if a.toNat < b.toNat then true
      else if b.toNat < a.toNat then false
      else strLeL as bs

def strLe (s t : String) : Bool := strLeL s.data t.data

/-- Comparison used by `out.sort(key=lambda x: x["date"])`. -/
def dateLe (a b : NTx) : Prop := strLe a.date b.date = true

instance : DecidableRel dateLe := fun a b => inferInstanceAs (Decidable (_ = true))

/-- Python `normalize_transactions` (src/parsers/common.py lines 44-63): per-record
normalization followed by a stable sort on `date` (Python's `list.sort` is
stable; insertion sort on `≤` is the same stable sort). -/
def normalize_transactions (txs : List Tx) : List NTx :=
  List.insertionSort dateLe (txs.map normOne)

/-! ### Direction classifiers of app.py, chase.py, bofa.py -/

/-- Python `classify_direction` (src/app.py lines 145-155). -/
def classify_direction (desc : String) (amount : ℚ) : String :=
  if amount < 0 then "out"
  else if 0 < amount then "in"
  else
    let t := pyLower desc
    if containsAny t ["deposit", "credit", "money added", "incoming"] then "in"
    else if containsAny t ["withdraw", "debit", "outgoing", "payment", "fee"] then "out"
    else "unknown"

/-- Python `ChaseParser._determine_direction` (src/parsers/chase.py lines 445-519).
The `full_text` parameter is accepted and ignored exactly as in the source. -/
def chaseDetermineDirection (description : String) (section_context : Option String)
    (amount : ℚ) (full_text : String) : String :=
  let d := pyLower description
  let _ := full_text
  if containsAny d ["card purchase", "card withdrawal", "compra con tarjeta",
      "recurring card purchase", "lyft", "atlantic broadband", "harvard business serv"] then
    "out"
  else if containsSub d "deposit" || containsSub d "depósito" || containsSub d "depÃ³sito" then
    "in"
  else if containsAny d ["payment to", "zelle payment to", "online payment", "pago a",
      "transferencia a"] then "out"
  else if containsAny d ["wise us inc", "wise", "trnwise"] then "out"
  else if containsAny d ["débito de cámara de compensación automatizada",
      "dÉbito de cÁmara de compensaciÓn automatizada", "débito de cámara",
      "dÉbito de cÁmara"] then "out"
  else if containsSub d "orig co name" then
    if section_context = some "deposits" then "in"
    else if section_context = some "withdrawals" ∨ section_context = some "electronic withdrawals"
      then "out"
    else if containsAny d ["descr:sender", "descr:credit", "credit"] then "in"
    else "out"
  else if containsAny d ["direct debit", "débito directo", "dÃ©bito directo", "elec pymt",
      "ach debit"] then "out"
  else if containsAny d ["fee", "charge", "cargo", "counter check", "comisión", "comisiÃ³n"] then
    "out"
  else if section_context = some "deposits" then "in"
  else if section_context = some "withdrawals" ∨ section_context = some "fees" then "out"
  else if amount < 0 then "out"
  else if 0 < amount then "in"
  else "out"

/-- Search `wire type:\s*<kw>` in a (lowercased) character list; since `kw`
starts with a non-space letter, consuming the maximal space run after the
colon is equivalent to the regex's `\s*`. -/
def wireTypeSearch (kw : String) : List Char → Bool
  | [] => false
  | c :: t =>
      (startsW "wire type:".data (c :: t) &&
        startsW kw.data (((c :: t).drop 10).dropWhile isSpaceChar)) ||
        wireTypeSearch kw t

/-- Python `BOFAParser._determine_direction` (src/parsers/bofa.py lines 229-324). -/
def bofaDetermineDirection (description : String) (section_context : Option String) : String :=
  let d := pyLower description
  if wireTypeSearch "wire in" d.data || wireTypeSearch "intl in" d.data ||
      wireTypeSearch "book in" d.data || wireTypeSearch "fx in" d.data then "in"
  else if wireTypeSearch "wire out" d.data || wireTypeSearch "intl out" d.data ||
      wireTypeSearch "fx out" d.data || wireTypeSearch "book out" d.data then "out"
  else if containsSub d "zelle payment from" then "in"
  else if containsSub d "zelle payment to" then "out"
  else if containsSub d "transfer" && containsSub d "from" && containsSub d "via wise" then "in"
  else if containsAny d ["fee", "charge", "svc charge", "monthly fee",
      "international transaction fee"] then "out"
  else if containsAny d ["checkcard", "purchase", "mobile purchase"] then "out"
  else if containsAny d ["deposit", "credit", "received", "cashreward"] then "in"
  else if (containsSub d "preferred rewards" || containsSub d "prfd rwds") &&
      containsSub d "waiver" then "out"
  else if (containsSub d "online banking transfer" || containsSub d "online transfer") &&
      section_context.isSome then
    if section_context = some "deposits" then "in" else "out"
  else if (containsSub d "ca tlr transfer" || containsSub d "teller transfer") &&
      section_context.isSome then
    if section_context = some "deposits" then "in" else "out"
  else if containsSub d "bkofamerica bc" && section_context.isSome then
    if section_context = some "deposits" then "in" else "out"
  else if section_context = some "deposits" then "in"
  else if section_context = some "withdrawals" then "out"
  else if containsSub d "transfer" && containsSub d "confirmation#" then "out"
  else if containsSub d "online banking" &&
      (containsSub d "payment" || containsSub d "transfer") then "out"
  else if containsSub d "wise inc" then
    if containsSub description "-" then "out" else "in"
  else if containsSub d "ontop holdings" then "in"
  else if containsSub d "des:" && (containsSub d "alejandr" || containsSub d "leonardo") &&
      !containsSub d "payment" then "in"
  else if containsSub d "acctverify" || containsSub d "des:acctverify" then
    if containsSub description "-" then "out" else "in"
  else if containsSub d "bnf:" then "out"
  else "out"

/-! ### Reference-id extraction (src/app.py lines 157-162) -/

def refIdChar (c : Char) : Bool := isAlphaChar c || isDigitChar c || c = '-'

def isAlnumChar (c : Char) : Bool := isAlphaChar c || isDigitChar c

/-- Alternatives of the labelled-reference pattern, lowercased, in order. -/
def REF_PREFIXES : List String :=
  ["confirmation#", "conf#", "ref:", "reference:", "id:", "transaction:"]

def refTryPrefix : List String → List Char → Option String
  | [], _ => none
  | p :: ps, l =>
      if startsW p.data ((l.take p.length).map lowerChar) && p.length ≤ l.length then
        let r := (l.drop p.length).dropWhile isSpaceChar
        let idt := r.takeWhile refIdChar
        if idt.isEmpty then refTryPrefix ps l else some ⟨idt⟩
      else refTryPrefix ps l

def refFirstPat : List Char → Option String
  | [] => none
  | c :: t => refTryPrefix REF_PREFIXES (c :: t) <|> refFirstPat t

/-- Fallback `\b[A-Za-z0-9]{8,}\b` of `extract_ref`. -/
def refFallback : Option Char → List Char → Option String
  | _, [] => none
  | prev, c :: t =>
      (if bndAt prev (c :: t) then
        let run := (c :: t).takeWhile isAlnumChar
        let rest := (c :: t).dropWhile isAlnumChar
        if 8 ≤ run.length &&
            !(match rest with | [] => false | r :: _ => isWordChar r) then
          some ⟨run⟩
        else none
      else none) <|> refFallback (some c) t

/-- Python `extract_ref` (src/app.py lines 157-162). -/
def extract_ref (s : String) : Option String :=
  refFirstPat s.data <|> refFallback none s.data

/-! ### Block segmentation (src/parsers/base.py lines 91-118 and the identical
loops of mercury.py and truist.py)

`segBlocks isD stop lines` models the shared while-loop: lines failing `isD`
are skipped; a line satisfying `isD` anchors a block that accumulates the
following lines until the next line satisfying `isD` or `stop` (truist's extra
break keywords; `stop` is constantly false for generic and mercury); scanning
resumes at that line. -/
/-- Loop state and transition of the shared segmentation while-loop: `cur` is
the currently open block (anchor line, accumulated lines), if any.  A line
satisfying `isD` closes the open block and anchors a new one; a line satisfying
`stop` closes the open block and is skipped (outer loop resumes there and, not
being a date line, skips it); any other line is appended to the open block. -/
def segBlocksGo (isD stop : String → Bool) :
    Option (String × List String) → List String → List (String × List String)
  | none, [] => []
  | some b, [] => [b]
  | none, x :: xs =>
      if isD x then segBlocksGo isD stop (some (x, [])) xs
      else segBlocksGo isD stop none xs
  | some b, x :: xs =>
      if isD x then b :: segBlocksGo isD stop (some (x, [])) xs
      else if stop x then b :: segBlocksGo isD stop none xs
      else segBlocksGo isD stop (some (b.1, b.2 ++ [x])) xs

def segBlocks (isD stop : String → Bool) (lines : List String) :
    List (String × List String) :=
  segBlocksGo isD stop none lines

/-- Date test of `GenericParser.parse` (and `TruistParser.parse`):
`parse_mmdd_token or parse_long_date or parse_mmmdd`. -/
def isDateGeneric (y : Nat) (s : String) : Bool :=
  (parse_mmdd_token s y).isSome || (parse_long_date s).isSome || (parse_mmmdd s y).isSome

def dateGeneric (y : Nat) (s : String) : Option String :=
  (parse_mmdd_token s y).orElse fun _ => (parse_long_date s).orElse fun _ => parse_mmmdd s y

/-- Python `GenericParser.parse` (src/parsers/base.py lines 91-118), as a function
of the extracted lines, the full text and the clock year consulted by
`detect_year`'s fallback. -/
def genericParse (lines : List String) (full_text : String) (nowYear : Nat) : List Tx :=
  let y := detect_year full_text nowYear
  (segBlocks (isDateGeneric y) (fun _ => false) lines).filterMap fun b =>
    match dateGeneric y b.1 with
    | none => none
    | some date =>
        let block_text := joinSpace (b.1 :: b.2)
        match pick_amount (findAmounts block_text) with
        | none => none
        | some amt =>
            some { date := date, description := clean_desc_remove_amount block_text,
                   amount := |amt|, direction := none }

/-- Date test of `MercuryParser.parse` (mmm-dd form first). -/
def isDateMercury (y : Nat) (s : String) : Bool :=
  (parse_mmmdd s y).isSome || (parse_mmdd_token s y).isSome || (parse_long_date s).isSome

def dateMercury (y : Nat) (s : String) : Option String :=
  (parse_mmmdd s y).orElse fun _ => (parse_mmdd_token s y).orElse fun _ => parse_long_date s

/-- Python `MercuryParser.parse` (src/parsers/mercury.py lines 8-35).  Note that
the emitted `amount` keeps the sign returned by `pick_amount` (no `abs`) and no
`direction` key is set. -/
def mercuryParse (lines : List String) (full_text : String) (nowYear : Nat) : List Tx :=
  let y := detect_year full_text nowYear
  (segBlocks (isDateMercury y) (fun _ => false) lines).filterMap fun b =>
    match dateMercury y b.1 with
    | none => none
    | some date =>
        let text := joinSpace (b.1 :: b.2)
        match pick_amount (findAmounts text) with
        | none => none
        | some amt =>
            some { date := date, description := clean_desc_remove_amount text,
                   amount := amt, direction := none }

/-! ### TruistParser (src/parsers/truist.py) -/

/-- Break keywords of the truist block loop (src/parsers/truist.py lines 51-64). -/
def truistBreakKw (s : String) : Bool :=
  containsAny (pyLower s) ["total deposits", "total withdrawals", "important:", "questions",
    "contact center", "member fdic", "fee schedule"]

/-- Loop body of `TruistParser.parse` after `year` has been obtained
(src/parsers/truist.py lines 27-110). -/
def truistBody (lines : List String) (year : Nat) : List Tx :=
  (segBlocks (isDateGeneric year) truistBreakKw lines).filterMap fun b =>
    match dateGeneric year b.1 with
    | none => none
    | some date =>
        let text := joinSpace (b.1 :: b.2)
        match pick_amount (findAmounts text) with
        | none => none
        | some amt =>
            let desc := clean_desc_remove_amount text
            if containsAny (pyLower desc)
                ["your new balance", "beginning balance", "ending balance"] then none
            else
              let dl := pyLower desc
              let dir :=
                if amt < 0 then "out"
                else if containsAny dl ["payment to", "zelle", "transfer", "iat", "withdrawal",
                    "debit"] then "out"
                else if containsAny dl ["deposit", "credit", "zelle from", "incoming wire"] then
                  "in"
                else if 0 < amt then "in" else "out"
              some { date := date, description := desc, amount := |amt|,
                     direction := some dir }

/-- Python runtime errors relevant to the model. -/
inductive PyErr where
  | attributeError
deriving Repr, DecidableEq

/-- Method names defined by `class BaseBankParser` (src/parsers/base.py lines 86-89). -/
def baseBankParserMethods : List String := ["parse"]

/-- Method names defined by `class TruistParser` (src/parsers/truist.py lines 14-110). -/
def truistParserMethods : List String := ["parse"]

/-- Attribute lookup for `self.infer_year` on a `TruistParser` instance: Python
searches the instance's class and then its bases.  Neither `TruistParser` nor
`BaseBankParser` defines `infer_year`, so the lookup fails. -/
def truistResolvesInferYear : Bool :=
  (truistParserMethods ++ baseBankParserMethods).contains "infer_year"

/-- The would-be implementation of `infer_year`, obtained from the class method
tables: no class in the hierarchy defines it, so there is nothing to call. -/
def truistInferYearImpl : Option (String → Nat) :=
  if truistResolvesInferYear then some (fun _ => 0) else none

/-- Python `TruistParser.parse` (src/parsers/truist.py lines 17-110): the first
statement after line extraction evaluates `self.infer_year(full_text)`; a failed
attribute lookup raises `AttributeError` before any transaction is produced. -/
def truistParse (lines : List String) (full_text : String) : Except PyErr (List Tx) :=
  match truistInferYearImpl with
  | none => .error .attributeError
  | some iy => .ok (truistBody lines (iy full_text))

/-! ### ChaseParser date and amount extraction (src/parsers/chase.py) -/

/-- Legal-text markers that suppress date extraction
(src/parsers/chase.py lines 272-279). -/
def CHASE_LEGAL_MARKERS : List String :=
  ["llámenos al", "llÃ¡menos al", "call us at", "en caso de errores", "in case of errors",
   "prepárese para proporcionar", "prepÃ¡rese para proporcionar", "prepare to provide"]

/-- Match `(\d{1,2})/(\d{1,2})\s` at the start of `l` (Python backtracking:
two digits before one). -/
def matchSlashDateSpace (l : List Char) : Option (Nat × Nat) :=
  tryMM 2 l <|> tryMM 1 l
where
  tryDD (mm k : Nat) (r : List Char) : Option (Nat × Nat) :=
    match takeDigitsExactly k r with
    | some (dd, c :: _) => if isSpaceChar c then some (mm, dd) else none
    | _ => none
  tryMM (k : Nat) (l : List Char) : Option (Nat × Nat) :=
    match takeDigitsExactly k l with
    | some (mm, '/' :: r) => tryDD mm 2 r <|> tryDD mm 1 r
    | _ => none

/-- Month/day extraction of `ChaseParser._extract_date` (src/parsers/chase.py
lines 267-292): legal-marker suppression, anchored `(\d{1,2})/(\d{1,2})\s`
match on the stripped line, then the explicit range validation. -/
def chaseExtractMD (line : String) : Option (Nat × Nat) :=
  if containsAny (pyLower line) CHASE_LEGAL_MARKERS then none
  else
    match matchSlashDateSpace (pyStrip line).data with
    | none => none
    | some (m, d) => if 1 ≤ m ∧ m ≤ 12 ∧ 1 ≤ d ∧ d ≤ 31 then some (m, d) else none

/-- Python `ChaseParser._extract_date`. -/
def chaseExtractDate (line : String) (year : Nat) : Option String :=
  (chaseExtractMD line).map fun md => pad4 year ++ "-" ++ pad2 md.1 ++ "-" ++ pad2 md.2

/-- Separator class `[-.\s]` of the phone-number patterns. -/
def phoneSepClass : List Char := ['-', '.', ' ', '\t', '\n', '\r', '\x0b', '\x0c']

/-- Python `ChaseParser._appears_in_phone_number` (src/parsers/chase.py lines
392-407): the three phone patterns built around the cleaned amount string. -/
def chaseAppearsInPhoneNumber (clean : List Char) (full : List Char) : Bool :=
  reSearch [.bnd, .lit clean, .chcls phoneSepClass, .digs 3 4, .chcls phoneSepClass,
    .digs 4 4, .bnd] full ||
  reSearch [.bnd, .digs 3 3, .chcls phoneSepClass, .lit clean, .chcls phoneSepClass,
    .digs 4 4, .bnd] full ||
  reSearch [.bnd, .lit clean, .lit ['.'], .digs 4 4, .bnd] full

/-- Python `ChaseParser._appears_to_be_card_number` (src/parsers/chase.py lines
409-417): case-insensitive search for `\bCard\s+<clean>\b`. -/
def chaseAppearsToBeCardNumber (clean : List Char) (full : List Char) : Bool :=
  reSearch [.bnd, .lit "card".data, .wsPlus, .lit (clean.map lowerChar), .bnd]
    (full.map lowerChar)

/-- Python `ChaseParser._is_likely_transaction_amount` (src/parsers/chase.py
lines 368-390). -/
def chaseIsLikelyTransactionAmount (tok : String) (full_text : String) : Bool :=
  let clean := stripAmountChars tok.data
  match pyFloatQ clean with
  | none => false
  | some v =>
      if v < 1 then false
      else if chaseAppearsInPhoneNumber clean full_text.data then false
      else if chaseAppearsToBeCardNumber clean full_text.data then false
      else true

/-- Python `ChaseParser._extract_amount_from_block_improved` (src/parsers/chase.py
lines 330-366): collect all `RE_AMOUNT` matches of the block's lines, filter by
`_is_likely_transaction_amount` (falling back to the unfiltered list when the
filter removes everything), and convert the FIRST surviving token. -/
def chaseExtractAmountFromBlockImproved (block : List String) (full_text : String) :
    Option ℚ :=
  let all_amounts := (block.map findAmounts).flatten
  if all_amounts.isEmpty then none
  else
    let valid := all_amounts.filter fun a => chaseIsLikelyTransactionAmount a full_text
    let chosen := if valid.isEmpty then all_amounts else valid
    match chosen with
    | [] => none
    | tok :: _ =>
        let tl := tok.data
        let neg := tl.head? = some '-' || tl.head? = some '(' || tl.getLast? = some '-'
        match pyFloatQ (stripAmountChars tl) with
        | none => none
        | some v => some (if neg then -v else v)

/-! ### Calendar-date validity

The invariant claimed by the specification: a `date` field is a valid calendar
date rendered as `YYYY-MM-DD`. -/

def daysInMonth (y m : Nat) : Nat :=
  if m = 2 then
    if (y % 4 = 0 && y % 100 ≠ 0) || y % 400 = 0 then 29 else 28
  else if m = 4 || m = 6 || m = 9 || m = 11 then 30
  else 31

def digitVal (c : Char) : Nat := c.toNat - '0'.toNat

/-- Decides whether a string is a valid calendar date rendered as `YYYY-MM-DD`. -/
def isValidISODate (s : String) : Bool :=
  match s.data with
  | [y1, y2, y3, y4, '-', m1, m2, '-', d1, d2] =>
      [y1, y2, y3, y4, m1, m2, d1, d2].all isDigitChar &&
        (let y := 1000 * digitVal y1 + 100 * digitVal y2 + 10 * digitVal y3 + digitVal y4
         let m := 10 * digitVal m1 + digitVal m2
         let d := 10 * digitVal d1 + digitVal d2
         1 ≤ m && m ≤ 12 && 1 ≤ d && d ≤ daysInMonth y m)
  | _ => false

/-! ### Concrete inputs used by the claim theorems -/

/-- The Chase statement line of the specification's amount-disambiguation
scenario (also the first test input of src/test_chase_fixes.py). -/
def latitudeLine : String :=
  "06/04 Card Purchase 06/03 Latitude On The Riv 866.800.4656 NE Card 3116 1,254.81"

/-- A transaction record carrying an extractable reference id, used to probe
deduplication in the aggregation step. -/
def dupTx : Tx :=
  { date := "2024-01-02", description := "Wire Transfer Ref: ABC12345",
    amount := 50, direction := some "out" }

/-! ### Stable-sort instances and helper lemmas -/

lemma strLeL_refl : ∀ l : List Char, strLeL l l = true := by
  intro l
  induction l with
  | nil => rfl
  | cons a as ih => simp [strLeL, Nat.lt_irrefl, ih]

lemma strLeL_total : ∀ a b : List Char, strLeL a b = true ∨ strLeL b a = true := by
  intro a
  induction a with
  | nil => intro b; left; rfl
  | cons x xs ih =>
      intro b
      match b with
      | [] => right; rfl
      | y :: ys =>
          by_cases hxy : x.toNat < y.toNat
          · left; simp [strLeL, hxy]
          · by_cases hyx : y.toNat < x.toNat
            · right; simp [strLeL, hyx]
            · rcases ih ys with h | h
              · left; simp [strLeL, hxy, hyx, h]
              · right; simp [strLeL, hxy, hyx, h]

lemma strLeL_trans : ∀ a b c : List Char,
    strLeL a b = true → strLeL b c = true → strLeL a c = true := by
  intro a
  induction a with
  | nil => intro b c _ _; rfl
  | cons x xs ih =>
      intro b c hab hbc
      match b, c with
      | [], _ => exact absurd hab (by simp [strLeL])
      | _ :: _, [] => exact absurd hbc (by simp [strLeL])
      | y :: ys, z :: zs =>
          rw [strLeL] at hab hbc ⊢
          by_cases hxy : x.toNat < y.toNat
          · by_cases hyz : y.toNat < z.toNat
            · simp [Nat.lt_trans hxy hyz]
            · by_cases hzy : z.toNat < y.toNat
              · simp [strLeL, hyz, hzy] at hbc
              · have : y.toNat = z.toNat := Nat.le_antisymm (Nat.not_lt.mp hzy)
                  (Nat.not_lt.mp hyz)
                simp [this ▸ hxy]
          · by_cases hyx : y.toNat < x.toNat
            · simp [strLeL, hxy, hyx] at hab
            · have hxy' : x.toNat = y.toNat := Nat.le_antisymm (Nat.not_lt.mp hyx)
                (Nat.not_lt.mp hxy)
              simp only [strLeL, hxy, hyx, if_false] at hab
              by_cases hyz : y.toNat < z.toNat
              · simp [hxy' ▸ hyz]
              · by_cases hzy : z.toNat < y.toNat
                · simp [strLeL, hyz, hzy] at hbc
                · simp only [strLeL, hyz, hzy, if_false] at hbc
                  simp [hxy', hyz, hzy, ih ys zs hab hbc]

instance : IsTotal NTx dateLe := ⟨fun a b => strLeL_total a.date.data b.date.data⟩

instance : IsTrans NTx dateLe :=
  ⟨fun _ _ _ h1 h2 => strLeL_trans _ _ _ h1 h2⟩

lemma filter_orderedInsert (d : String) (a : NTx) (l : List NTx) :
    (List.orderedInsert dateLe a l).filter (fun t => t.date == d) =
      if a.date == d then a :: l.filter (fun t => t.date == d)
      else l.filter (fun t => t.date == d) := by
  induction l with
  | nil =>
      by_cases had : a.date = d
      · have ha : (a.date == d) = true := beq_iff_eq.mpr had
        simp [List.orderedInsert, List.filter_cons, ha, had]
      · have ha : (a.date == d) = false := by simp [had]
        simp [List.orderedInsert, List.filter_cons, ha, had]
  | cons b t ih =>
      by_cases hab : dateLe a b
      · rw [List.orderedInsert, if_pos hab]
        by_cases had : a.date = d
        · have ha : (a.date == d) = true := beq_iff_eq.mpr had
          simp [List.filter_cons, ha, had]
        · have ha : (a.date == d) = false := by simp [had]
          simp [List.filter_cons, ha, had]
      · rw [List.orderedInsert, if_neg hab]
        by_cases had : a.date = d
        · have hbd : b.date ≠ d := by
            intro hb
            have heq : a.date = b.date := had.trans hb.symm
            exact hab (by rw [dateLe, strLe, heq]; exact strLeL_refl _)
          have ha : (a.date == d) = true := beq_iff_eq.mpr had
          have hb : (b.date == d) = false := by simp [hbd]
          simp [List.filter_cons, ha, hb, had, hbd, ih]
        · have ha : (a.date == d) = false := by simp [had]
          by_cases hbd : b.date = d
          · have hb : (b.date == d) = true := beq_iff_eq.mpr hbd
            simp [List.filter_cons, ha, hb, had, ih]
          · have hb : (b.date == d) = false := by simp [hbd]
            simp [List.filter_cons, ha, hb, had, ih]

lemma filter_insertionSort (d : String) (l : List NTx) :
    (List.insertionSort dateLe l).filter (fun t => t.date == d) =
      l.filter (fun t => t.date == d) := by
  induction l with
  | nil => rfl
  | cons a t ih =>
      rw [List.insertionSort, filter_orderedInsert]
      by_cases had : a.date = d
      · have ha : (a.date == d) = true := beq_iff_eq.mpr had
        simp [List.filter_cons, ha, had, ih]
      · have ha : (a.date == d) = false := by simp [had]
        simp [List.filter_cons, ha, had, ih]

/-! ### Segmentation helper lemmas -/

lemma segBlocksGo_mem (isD stop : String → Bool) :
    ∀ (l : List String) (cur : Option (String × List String)),
      (∀ b0, cur = some b0 → isD b0.1 = true ∧ ∀ s ∈ b0.2, isD s = false ∧ stop s = false) →
      ∀ b ∈ segBlocksGo isD stop cur l,
        isD b.1 = true ∧ ∀ s ∈ b.2, isD s = false ∧ stop s = false := by
  intro l
  induction l with
  | nil =>
      intro cur hcur b hb
      match cur with
      | none => simp [segBlocksGo] at hb
      | some b0 =>
          rw [segBlocksGo] at hb
          rcases List.mem_singleton.mp hb with rfl
          exact hcur b rfl
  | cons x xs ih =>
      intro cur hcur b hb
      match cur with
      | none =>
          rw [segBlocksGo] at hb
          by_cases hd : isD x
          · rw [if_pos hd] at hb
            refine ih (some (x, [])) ?_ b hb
            rintro b0 ⟨rfl⟩
            exact ⟨hd, by simp⟩
          · rw [if_neg hd] at hb
            exact ih none (by simp) b hb
      | some b0 =>
          rw [segBlocksGo] at hb
          by_cases hd : isD x
          · rw [if_pos hd] at hb
            rcases List.mem_cons.mp hb with rfl | hb
            · exact hcur b rfl
            · refine ih (some (x, [])) ?_ b hb
              rintro b1 ⟨rfl⟩
              exact ⟨hd, by simp⟩
          · rw [if_neg hd] at hb
            by_cases hs : stop x
            · rw [if_pos hs] at hb
              rcases List.mem_cons.mp hb with rfl | hb
              · exact hcur b rfl
              · exact ih none (by simp) b hb
            · rw [if_neg hs] at hb
              refine ih (some (b0.1, b0.2 ++ [x])) ?_ b hb
              rintro b1 ⟨rfl⟩
              refine ⟨(hcur b0 rfl).1, fun s hsm => ?_⟩
              rcases List.mem_append.mp hsm with hsm | hsm
              · exact (hcur b0 rfl).2 s hsm
              · rcases List.mem_singleton.mp hsm with rfl
                exact ⟨by simpa using hd, by simpa using hs⟩

/-- Accumulating through a run of non-date, non-stop lines and closing at the
next date anchor. -/
lemma segBlocksGo_accum (isD stop : String → Bool) (anchor2 : String)
    (hd2 : isD anchor2 = true) :
    ∀ (mid : List String), (∀ m ∈ mid, isD m = false ∧ stop m = false) →
      ∀ (a : String) (acc : List String) (post : List String),
        segBlocksGo isD stop (some (a, acc)) (mid ++ anchor2 :: post) =
          (a, acc ++ mid) :: segBlocksGo isD stop (some (anchor2, [])) post := by
  intro mid
  induction mid with
  | nil =>
      intro _ a acc post
      simp only [List.nil_append, segBlocksGo, if_pos hd2, List.append_nil]
  | cons m ms ih =>
      intro hm a acc post
      have hmd : isD m = false := (hm m (List.mem_cons_self m ms)).1
      have hms : stop m = false := (hm m (List.mem_cons_self m ms)).2
      rw [List.cons_append, segBlocksGo, if_neg (by simp [hmd]), if_neg (by simp [hms]),
        ih (fun s hs => hm s (List.mem_cons_of_mem m hs)) a (acc ++ [m]) post]
      simp

/-! ### Direction-rule helper lemmas -/

lemma decideAux_mem (rules : List (DirRule × String)) (d : List Char) (a : ℚ)
    (h : ∀ p ∈ rules, p.2 = "out" ∨ p.2 = "in") :
    decideAux rules d a = "out" ∨ decideAux rules d a = "in" := by
  induction rules with
  | nil =>
      by_cases ha : a < 0 <;> simp [decideAux, ha]
  | cons p ps ih =>
      obtain ⟨r, dd⟩ := p
      rw [decideAux]
      by_cases hm : ruleMatches r d = true
      · rw [if_pos hm]
        exact h (r, dd) (List.mem_cons_self _ _)
      · rw [if_neg hm]
        exact ih fun q hq => h q (List.mem_cons_of_mem _ hq)

lemma startsW_append (a b l : List Char) (h : startsW (a ++ b) l = true) :
    startsW a l = true ∧ startsW b (l.drop a.length) = true := by
  induction a generalizing l with
  | nil => simpa [startsW] using h
  | cons x xs ih =>
      match l with
      | [] => simp [startsW] at h
      | y :: ys =>
          rw [List.cons_append, startsW, Bool.and_eq_true] at h
          obtain ⟨hxy, hrest⟩ := h
          have := ih ys hrest
          exact ⟨by rw [startsW]; simp [hxy, this.1], by simpa using this.2⟩

/-- Containment of the literal marker `wire type: <kw>` (one space) implies that
`wireTypeSearch kw` succeeds, because the regex's `\s*` absorbs the space. -/
lemma wireTypeSearch_of_contains (kw : String) (c0 : Char) (kwtail : List Char)
    (hkw : kw.data = c0 :: kwtail) (hc0 : isSpaceChar c0 = false) :
    ∀ l : List Char, containsSubL ("wire type: ".data ++ kw.data) l = true →
      wireTypeSearch kw l = true := by
  intro l
  induction l with
  | nil =>
      intro h
      rw [containsSubL,
        show ("wire type: ".data ++ kw.data) = 'w' :: ("ire type: ".data ++ kw.data) from rfl,
        startsW] at h
      exact absurd h (by simp)
  | cons c t ih =>
      intro h
      rw [containsSubL, Bool.or_eq_true] at h
      rcases h with h | h
      · rw [show ("wire type: ".data ++ kw.data) =
            "wire type:".data ++ (' ' :: kw.data) from rfl] at h
        obtain ⟨h1, h2⟩ := startsW_append _ _ _ h
        rw [wireTypeSearch, Bool.or_eq_true]
        left
        rw [Bool.and_eq_true]
        refine ⟨h1, ?_⟩
        rw [show ("wire type:".data).length = 10 from rfl] at h2
        cases hdrop : (c :: t).drop 10 with
        | nil =>
            rw [hdrop] at h2
            simp [startsW] at h2
        | cons d ds =>
            rw [hdrop] at h2
            simp only [startsW, Bool.and_eq_true] at h2
            obtain ⟨hd, hrest⟩ := h2
            have hd' : d = ' ' := (of_decide_eq_true hd).symm
            rw [hd', List.dropWhile_cons]
            simp only [show isSpaceChar ' ' = true from rfl, if_true]
            rw [hkw] at hrest ⊢
            cases ds with
            | nil =>
                rw [startsW] at hrest
                exact absurd hrest (by simp)
            | cons e es =>
                rw [startsW, Bool.and_eq_true] at hrest
                obtain ⟨he, hrest2⟩ := hrest
                have he' : c0 = e := of_decide_eq_true he
                rw [List.dropWhile_cons, ← he', hc0]
                simp only [Bool.false_eq_true, if_false]
                rw [startsW, Bool.and_eq_true]
                exact ⟨by simp, hrest2⟩
      · rw [wireTypeSearch, Bool.or_eq_true]
        right
        exact ih h

/-- Every record emitted by `MercuryParser.parse` leaves the `direction` key
absent. -/
lemma mercuryParse_direction (lines : List String) (ft : String) (now : Nat) :
    ∀ t ∈ mercuryParse lines ft now, t.direction = none := by
  intro t ht
  rw [mercuryParse] at ht
  obtain ⟨b, _, hfb⟩ := List.mem_filterMap.mp ht
  split at hfb
  · exact absurd hfb (by simp)
  · dsimp only at hfb
    split at hfb
    · exact absurd hfb (by simp)
    · obtain rfl := Option.some.inj hfb
      rfl

/-- The shared direction rules only ever return `"out"` or `"in"`. -/
lemma decide_direction_mem (desc : String) (a : ℚ) :
    decide_direction desc a = "out" ∨ decide_direction desc a = "in" :=
  decideAux_mem DIR_RULES _ a (by decide)

/-! ### Claim theorems -/

/-- C2: for every input, `TruistParser.parse` raises `AttributeError` before
producing any result, because its first step calls `self.infer_year(full_text)`
and no method `infer_year` is defined on `TruistParser` or `BaseBankParser`; the
"truist" profile never returns a transaction list. -/
theorem C2_truist_infer_year_attribute_error :
    truistResolvesInferYear = false ∧
      ∀ (lines : List String) (full_text : String),
        truistParse lines full_text = .error .attributeError :=
  ⟨rfl, fun _ _ => rfl⟩

/-- C3 counterexample: the claim fails for `parse_mmdd_token`, the numeric
`M/D[/YY[YY]]` recognizer of src/parsers/base.py: it accepts the leading token
`13/45`, whose month 13 is outside [1,12] and day 45 outside [1,31], and
returns the non-date `2024-13-45`. -/
theorem C3_cex_parse_mmdd_token_no_validation :
    parse_mmdd_token "13/45 foo" 2024 = some "2024-13-45" ∧
      isValidISODate "2024-13-45" = false := by
  constructor <;> rfl

/-- C3 amended: the month/day range validation claimed by the spec is performed
by `ChaseParser._extract_date` (month ∈ [1,12] and day ∈ [1,31] whenever a date
is returned), but not by `parse_mmdd_token`, which accepts any matched digits. -/
theorem C3_chase_extract_date_validates :
    ∀ (line : String) (m d : Nat), chaseExtractMD line = some (m, d) →
      1 ≤ m ∧ m ≤ 12 ∧ 1 ≤ d ∧ d ≤ 31 := by
  intro line m d h
  rw [chaseExtractMD] at h
  split at h
  · exact absurd h (by simp)
  · split at h
    · exact absurd h (by simp)
    · split at h
      · rename_i cond
        injection h with h'
        rw [Prod.mk.injEq] at h'
        obtain ⟨rfl, rfl⟩ := h'
        exact cond
      · exact absurd h (by simp)

/-- C3 witness: the validation theorem applied to a concrete accepted line. -/
theorem C3_witness :
    chaseExtractMD "06/04 Card Purchase" = some (6, 4) ∧
      (1 ≤ 6 ∧ 6 ≤ 12 ∧ 1 ≤ 4 ∧ 4 ≤ 31) :=
  ⟨by decide, C3_chase_extract_date_validates "06/04 Card Purchase" 6 4 (by decide)⟩

/-- C5: on the specification's own scenario line, `ChaseParser`'s amount
resolver returns 6.0, not 1254.81: the leading day fragment `06` of the date
token passes `_is_likely_transaction_amount` (it is ≥ 1 and matches none of the
phone/card patterns) and, being first in the candidate list, is chosen as the
amount.  The repository's test (src/test_chase_fixes.py, `assert amount ==
1254.81`) documents the intended behaviour, so this is a bug in the code. -/
theorem C5_chase_amount_resolver_bug :
    chaseExtractAmountFromBlockImproved [latitudeLine] latitudeLine = some 6 ∧
      chaseExtractAmountFromBlockImproved [latitudeLine] latitudeLine ≠
        some ((125481 : ℚ) / 100) := by
  constructor
  · decide
  · intro h
    have h6 : chaseExtractAmountFromBlockImproved [latitudeLine] latitudeLine =
        some 6 := by decide
    rw [h6] at h
    obtain h' := Option.some.inj h
    norm_num at h'

/-- C7 counterexample: two identical records agreeing on (date, amount,
direction), both with the extractable reference id `ABC12345`, both survive
`normalize_transactions`: the aggregation step performs no deduplication. -/
theorem C7_cex_duplicates_survive :
    extract_ref dupTx.description = some "ABC12345" ∧
      normalize_transactions [dupTx, dupTx] = [normOne dupTx, normOne dupTx] := by
  constructor
  · rfl
  · decide

/-- C7 amended: the aggregation step performs no deduplication at all: it emits
exactly one output record per input record, regardless of reference ids. -/
theorem C7_no_deduplication :
    ∀ txs : List Tx, (normalize_transactions txs).length = txs.length := by
  intro txs
  rw [normalize_transactions]
  exact ((List.perm_insertionSort dateLe _).length_eq).trans (List.length_map _ _)

/-- C9: the list returned by `normalize_transactions` is sorted non-decreasing
by `date`, and for every date value the records with that date appear in the
same relative order as in the (normalized) input: a stable sort. -/
theorem C9_sorted_and_stable :
    ∀ txs : List Tx,
      List.Sorted dateLe (normalize_transactions txs) ∧
        ∀ d : String,
          (normalize_transactions txs).filter (fun t => t.date == d) =
            (txs.map normOne).filter (fun t => t.date == d) := by
  intro txs
  exact ⟨List.sorted_insertionSort dateLe _, fun d => filter_insertionSort d _⟩

/-- C10 counterexample: on a document whose text contains no `20XX` year token,
`detect_year` falls back to the wall clock, so the same input lines produce
different outputs when parsed under different clock years: the pipeline is not
independent of state outside the input. -/
theorem C10_cex_clock_dependence :
    genericParse ["01/02 Foo 5.00"] "" 2024 ≠ genericParse ["01/02 Foo 5.00"] "" 2025 := by
  decide

/-- C10 amended: the pipeline is deterministic whenever the document text
contains a `20XX` year token: in that case `detect_year` ignores the clock and
two runs with different clock years produce identical output. -/
theorem C10_deterministic_given_year :
    ∀ (lines : List String) (full_text : String) (y n₁ n₂ : Nat),
      findYear20xx full_text = some y →
      genericParse lines full_text n₁ = genericParse lines full_text n₂ := by
  intro lines full_text y n₁ n₂ h
  simp only [genericParse, detect_year, h]

/-- C10 witness: determinism at a concrete input whose text names a year. -/
theorem C10_witness :
    findYear20xx "June 2024" = some 2024 ∧
      genericParse ["01/02 Foo 5.00"] "June 2024" 1999 =
        genericParse ["01/02 Foo 5.00"] "June 2024" 2025 :=
  ⟨by decide, C10_deterministic_given_year ["01/02 Foo 5.00"] "June 2024" 2024 1999 2025
    (by decide)⟩

/-- C1 counterexample: the line `13/45 Foo 5.00` is accepted as a date anchor by
the mercury parser, and after aggregation the emitted record carries the date
`2024-13-45`, which is not a valid calendar date: the date part of the claimed
invariant fails. -/
theorem C1_cex_invalid_date_emitted :
    normalize_transactions (mercuryParse ["13/45 Foo 5.00"] "Statement 2024" 0) =
      [⟨"2024-13-45", "13/45 Foo", 13, "in"⟩] ∧
      isValidISODate "2024-13-45" = false := by
  constructor
  · decide
  · rfl

/-- C1 amended: after the aggregation step every record of the mercury pipeline
has `amount ≥ 0` and a `direction` among the three enum values; the date part
of the invariant does not hold (see the counterexample), because
`parse_mmdd_token` performs no range validation. -/
theorem C1_amount_and_direction_invariants :
    ∀ (lines : List String) (ft : String) (now : Nat) (t : NTx),
      t ∈ normalize_transactions (mercuryParse lines ft now) →
      0 ≤ t.amount ∧ (t.direction = "in" ∨ t.direction = "out" ∨ t.direction = "unknown") := by
  intro lines ft now t ht
  rw [normalize_transactions] at ht
  have hperm := List.perm_insertionSort dateLe ((mercuryParse lines ft now).map normOne)
  obtain ⟨t0, ht0, rfl⟩ := List.mem_map.mp (hperm.mem_iff.mp ht)
  constructor
  · simp only [normOne]
    exact abs_nonneg _
  · have hdir : t0.direction = none := mercuryParse_direction lines ft now t0 ht0
    have hval : (normOne t0).direction =
        decide_direction t0.description (if t0.amount < 0 then -t0.amount else t0.amount) := by
      simp [normOne, hdir, pyOr]
    rcases decide_direction_mem t0.description
        (if t0.amount < 0 then -t0.amount else t0.amount) with h | h
    · right; left; exact hval.trans h
    · left; exact hval.trans h

/-- C1 witness: the invariant theorem applied to the record emitted for a
concrete document. -/
theorem C1_witness :
    ((⟨"2024-13-45", "13/45 Foo", 13, "in"⟩ : NTx) ∈
        normalize_transactions (mercuryParse ["13/45 Foo 5.00"] "Statement 2024" 0)) ∧
      (0 ≤ (⟨"2024-13-45", "13/45 Foo", 13, "in"⟩ : NTx).amount ∧
        ((⟨"2024-13-45", "13/45 Foo", 13, "in"⟩ : NTx).direction = "in" ∨
          (⟨"2024-13-45", "13/45 Foo", 13, "in"⟩ : NTx).direction = "out" ∨
          (⟨"2024-13-45", "13/45 Foo", 13, "in"⟩ : NTx).direction = "unknown")) :=
  ⟨by decide, C1_amount_and_direction_invariants ["13/45 Foo 5.00"] "Statement 2024" 0 _
    (by decide)⟩

/-- C4 counterexample: `ChaseParser._determine_direction` has no explicit
wire-type marker rule: on a description consisting of the marker
`wire type: wire in`, evaluated in a `withdrawals` section, it returns `"out"`
via the section-context default, not `"in"`. -/
theorem C4_cex_chase_ignores_wire_marker :
    chaseDetermineDirection "wire type: wire in" (some "withdrawals") 100
        "wire type: wire in" = "out" ∧
      chaseDetermineDirection "wire type: wire in" (some "withdrawals") 100
        "wire type: wire in" ≠ "in" := by
  constructor
  · decide
  · decide

/-- C4 amended: in `BOFAParser._determine_direction` the explicit marker rule is
evaluated first and overrides any section context: every description containing
`wire type: wire in` is classified `"in"`, whatever the section.  Chase's
classifier lacks this rule (see the counterexample). -/
theorem C4_bofa_marker_overrides_section :
    ∀ (desc : String) (section_context : Option String),
      containsSub (pyLower desc) "wire type: wire in" = true →
      bofaDetermineDirection desc section_context = "in" := by
  intro desc section_context h
  have hw : wireTypeSearch "wire in" (pyLower desc).data = true := by
    apply wireTypeSearch_of_contains "wire in" 'w' "ire in".data rfl rfl
    rw [show ("wire type: ".data ++ "wire in".data) = "wire type: wire in".data from rfl]
    exact h
  simp [bofaDetermineDirection, hw]

/-- C4 witness: the marker-priority theorem at a concrete description inside a
withdrawals section. -/
theorem C4_witness :
    containsSub (pyLower "Wire Type: Wire In Ref 77") "wire type: wire in" = true ∧
      bofaDetermineDirection "Wire Type: Wire In Ref 77" (some "withdrawals") = "in" :=
  ⟨by decide,
    C4_bofa_marker_overrides_section "Wire Type: Wire In Ref 77" (some "withdrawals")
      (by decide)⟩

/-- C6 counterexample: on a description matching none of the direction rules and
a signed amount exactly zero, the shared fallback of `decide_direction` returns
`"in"`, not `"unknown"`: the sign fallback of src/parsers/common.py maps
everything non-negative to `"in"`. -/
theorem C6_cex_zero_maps_to_in :
    (DIR_RULES.all fun r => !ruleMatches r.1 (pyUpper "MISC").data) = true ∧
      decide_direction "MISC" 0 = "in" := by
  constructor
  · decide
  · decide

/-- C6 amended: the claimed mapping (negative → out, positive → in, zero →
unknown) is the one implemented by `classify_direction` in src/app.py, for
descriptions matching none of its keyword rules; `decide_direction` instead
maps zero to `"in"` (see the counterexample) and Chase's classifier maps zero
to `"out"`. -/
theorem C6_classify_direction_sign_fallback :
    ∀ (desc : String) (amount : ℚ),
      containsAny (pyLower desc) ["deposit", "credit", "money added", "incoming"] = false →
      containsAny (pyLower desc) ["withdraw", "debit", "outgoing", "payment", "fee"] = false →
      classify_direction desc amount =
        if amount < 0 then "out" else if 0 < amount then "in" else "unknown" := by
  intro desc amount h1 h2
  rw [classify_direction]
  by_cases hneg : amount < 0
  · simp [hneg]
  · by_cases hpos : 0 < amount
    · simp [hneg, hpos]
    · simp [hneg, hpos, h1, h2]

/-- C6 witness: the fallback theorem at a concrete rule-free description and
amount zero. -/
theorem C6_witness :
    containsAny (pyLower "misc") ["deposit", "credit", "money added", "incoming"] = false ∧
      containsAny (pyLower "misc") ["withdraw", "debit", "outgoing", "payment", "fee"] = false ∧
      classify_direction "misc" 0 = "unknown" :=
  ⟨by decide, by decide, by
    have h := C6_classify_direction_sign_fallback "misc" 0 (by decide) (by decide)
    simpa using h⟩

/-- C8: in the shared segmentation loop, a block anchored at a date line
accumulates exactly the lines up to (and excluding) the next date anchor when
nothing in between is a date line, and no block ever contains a second
date-anchor line (every accumulated line fails the date test). -/
theorem C8_segmentation_boundary :
    ∀ (y : Nat) (mid post : List String) (anchor anchor2 : String),
      isDateGeneric y anchor = true → isDateGeneric y anchor2 = true →
      (∀ m ∈ mid, isDateGeneric y m = false) →
      (segBlocks (isDateGeneric y) (fun _ => false) (anchor :: (mid ++ anchor2 :: post)) =
        (anchor, mid) :: segBlocks (isDateGeneric y) (fun _ => false) (anchor2 :: post)) ∧
      ∀ (lines : List String), ∀ b ∈ segBlocks (isDateGeneric y) (fun _ => false) lines,
        isDateGeneric y b.1 = true ∧ ∀ s ∈ b.2, isDateGeneric y s = false := by
  intro y mid post anchor anchor2 h1 h2 hmid
  constructor
  · rw [segBlocks, segBlocksGo, if_pos h1,
      segBlocksGo_accum (isDateGeneric y) (fun _ => false) anchor2 h2 mid
        (fun m hm => ⟨hmid m hm, rfl⟩) anchor [] post,
      List.nil_append, segBlocks, segBlocksGo, if_pos h2]
  · intro lines b hb
    have h := segBlocksGo_mem (isDateGeneric y) (fun _ => false) lines none (by simp) b hb
    exact ⟨h.1, fun s hs => (h.2 s hs).1⟩

/-- C8 witness: the boundary theorem applied to a concrete three-line document
with two adjacent date-anchored blocks. -/
theorem C8_witness :
    isDateGeneric 2024 "01/02 A 1.00" = true ∧ isDateGeneric 2024 "x" = false ∧
      segBlocks (isDateGeneric 2024) (fun _ => false)
          ["01/02 A 1.00", "x", "01/03 B 2.00"] =
        [("01/02 A 1.00", ["x"]), ("01/03 B 2.00", [])] := by
  refine ⟨by decide, by decide, ?_⟩
  have h := (C8_segmentation_boundary 2024 ["x"] [] "01/02 A 1.00" "01/03 B 2.00"
    (by decide) (by decide) (by decide)).1
  exact h.trans (by decide)

end PdfParser
